import Mathlib

/-!
# Verification of the resume quality checker pipeline

Shallow embedding of `resume_quality_checker.py`: the section/contact
detectors (`check_sections`), the experience-year heuristic
(`count_years_experience`), the spell checker wrapper (`spell_check`),
word/page counting (`word_page_count`), buzzword detection
(`buzzword_check`), text extraction dispatch (`extract_text`) and the
scorer (`calculate_score`).

Text is modelled as `List Char`; Python's unbounded `int` as `Int` (or
`Nat` for values that are lengths).  The regular-expression scans of the
source are embedded as executable scanners over character lists, faithful
to the ASCII fragment the detectors operate on (Python's `\w` restricted
to `[A-Za-z0-9_]`, `str.lower` to ASCII lowering).
-/

/-- Python `\w` word character, ASCII fragment: letters, digits, underscore. -/
def isWordChar (c : Char) : Bool :=
  c.isAlphanum || c == '_'

/-- ASCII lowering of a text, embedding Python `str.lower()` on the texts used. -/
def lowerText (t : List Char) : List Char :=
  t.map Char.toLower

/-- Python whitespace characters (`\s`, ASCII fragment), as used by `str.split()`. -/
def isPySpace (c : Char) : Bool :=
  c == ' ' || c == '\t' || c == '\n' || c == '\r' || c == '\x0b' || c == '\x0c'

/-- Helper for `pySplit`: accumulates the current token (reversed). -/
def pySplitGo : List Char → List Char → List (List Char)
  | [], acc => if acc.isEmpty then [] else [acc.reverse]
  | c :: rest, acc =>
      if isPySpace c then
        if acc.isEmpty then pySplitGo rest [] else acc.reverse :: pySplitGo rest []
      else
        pySplitGo rest (c :: acc)

/-- Python `str.split()` with no argument: split on runs of whitespace,
ignoring leading and trailing whitespace. -/
def pySplit (t : List Char) : List (List Char) :=
  pySplitGo t []

/-- The character preceding position `k`, if any (for `\b` boundary tests). -/
def preChar (t : List Char) (k : Nat) : Option Char :=
  match k with
  | 0 => none
  | Nat.succ j => t[j]?

/-- Word-character status of an optional character; positions outside the
text count as non-word, as in Python's `\b`. -/
def wordOpt : Option Char → Bool
  | none => false
  | some c => isWordChar c

/-- Python's `\b` assertion at position `k` of `t`: the word-character status
changes between the preceding character and the character at `k`. -/
def boundAt (t : List Char) (k : Nat) : Bool :=
  wordOpt (preChar t k) != wordOpt t[k]?

/-- The literal `p` occurs in `t` starting at position `i`. -/
def occursAt (p t : List Char) (i : Nat) : Bool :=
  (t.drop i).take p.length == p

/-- Python's substring test `p in t`. -/
def containsSub (p t : List Char) : Bool :=
  (List.range (t.length + 1)).any (occursAt p t)

/-- A match of `re.search(r'\b' + re.escape(p) + r'\b', t)` starting at
position `i`: the literal `p` occurs at `i` with `\b` holding on both sides. -/
def matchWBAt (p t : List Char) (i : Nat) : Bool :=
  occursAt p t i && boundAt t i && boundAt t (i + p.length)

/-- `bool(re.search(r'\b' + re.escape(p) + r'\b', t))`: some position of `t`
carries a word-boundary-delimited occurrence of the literal `p`. -/
def searchWB (p t : List Char) : Bool :=
  (List.range (t.length + 1)).any (matchWBAt p t)

/-- The buzzword vocabulary of `buzzword_check`, in source order. -/
def buzzwords : List String :=
  ["team player", "self-motivated", "leadership", "synergy", "proactive",
   "hardworking", "dynamic", "results-driven",
   "detail-oriented", "innovative", "strategic", "goal oriented", "motivated",
   "passionate", "responsible",
   "organized", "adaptable", "communication", "problem solving",
   "critical thinking", "flexible", "fast learner",
   "python", "java", "c++", "c#", "javascript", "sql", "excel", "tableau",
   "powerbi", "aws", "azure", "docker", "kubernetes",
   "react", "node", "git", "jira", "linux", "agile", "scrum", "html", "css",
   "typescript",
   "pmp", "six sigma", "aws certified", "data analyst", "business analyst",
   "product manager", "devops", "cloud",
   "machine learning", "artificial intelligence", "deep learning", "nlp",
   "data science", "web development",
   "project management", "client relations", "stakeholder engagement",
   "negotiation", "training", "mentoring"]

/-- `len(bw.split())`: number of whitespace-delimited words of a buzzword. -/
def numWords (bw : String) : Nat :=
  (pySplit bw.data).length

/-- `buzzword_check(text)`: lowercase the text once; a single-word entry
matches through the word-boundary search, a multi-word phrase through plain
substring containment; matched entries are returned in vocabulary order. -/
def buzzword_check (t : List Char) : List String :=
  buzzwords.filter fun bw =>
    if numWords bw == 1 then searchWB bw.data (lowerText t)
    else containsSub bw.data (lowerText t)

/-- `word_page_count(text)`: the word count is `len(text.split())`; the page
estimate is `max(1, int(word_count/500) + (1 if word_count % 500 else 0))`
(`int(word_count/500)` is truncating division, embedded as `Nat` division). -/
def word_page_count (t : List Char) : Nat × Nat :=
  (let wc := (pySplit t).length
   (wc, max 1 (wc / 500 + (if wc % 500 ≠ 0 then 1 else 0))))

/-- Character class `[A-Za-z0-9._%+-]` (local part of the e-mail regex). -/
def localChar (c : Char) : Bool :=
  c.isAlphanum || c == '.' || c == '_' || c == '%' || c == '+' || c == '-'

/-- Character class `[A-Za-z0-9.-]` (domain part of the e-mail regex). -/
def domChar (c : Char) : Bool :=
  c.isAlphanum || c == '.' || c == '-'

/-- Character class `[A-Z|a-z]` of the e-mail regex's TLD part (the class
literally contains `|`). -/
def tldChar (c : Char) : Bool :=
  c.isAlpha || c == '|'

/-- Length of the maximal prefix of `t` whose characters satisfy `p`
(a greedy `+`/`*` run). -/
def runLen (p : Char → Bool) : List Char → Nat
  | [] => 0
  | c :: rest => if p c then runLen p rest + 1 else 0

/-- The slice of `t` starting at `start` of length `len` exists and all its
characters satisfy `p`. -/
def sliceIs (p : Char → Bool) (t : List Char) (start len : Nat) : Bool :=
  ((t.drop start).take len).length == len && ((t.drop start).take len).all p

/-- Backtracking over the TLD length of the e-mail regex: try widths
`k, k-1, …, 2` of `[A-Z|a-z]{2,}` until the trailing `\b` holds at
`pos + width` in `t`. -/
def tryTld (t : List Char) (pos : Nat) : Nat → Option Nat
  | 0 => none
  | 1 => none
  | Nat.succ k =>
      if boundAt t (pos + (k + 1)) then some (k + 1) else tryTld t pos k

/-- Backtracking over the split of `[A-Za-z0-9.-]+\.` of the e-mail regex:
`rest` is the text from the domain start (`t.drop base`); try dot positions
`d, d-1, …, 1` (greedy-first, as the backtracking engine does) and for each,
a TLD run of `tldLen`-many characters with backtracking.  Returns the number
of characters consumed from the domain start. -/
def tryDot (t : List Char) (base : Nat) (rest : List Char) : Nat → Option Nat
  | 0 => none
  | Nat.succ d =>
      if rest[d + 1]? == some '.' then
        match tryTld t (base + d + 2) (runLen tldChar (rest.drop (d + 2))) with
        | some tl => some (d + 2 + tl)
        | none => tryDot t base rest d
      else tryDot t base rest d

/-- Match of `\b[A-Za-z0-9._%+-]+@[A-Za-z0-9.-]+\.[A-Z|a-z]{2,}\b` at
position `i` of `t`, following the backtracking engine: greedy local-part
run followed by `@`, greedy domain run backtracking on the final dot, greedy
TLD run backtracking on the trailing `\b`.  Returns the match length. -/
def matchEmailAt (t : List Char) (i : Nat) : Option Nat :=
  let s := t.drop i
  let l := runLen localChar s
  if l = 0 then none
  else if !boundAt t i then none
  else if s[l]? != some '@' then none
  else
    let rest := s.drop (l + 1)
    let m := runLen domChar rest
    if m = 0 then none
    else
      match tryDot t (i + l + 1) rest (m - 1) with
      | some consumed => some (l + 1 + consumed)
      | none => none

/-- Scanning loop of `re.findall` for the e-mail regex: at each position try
a match; on success emit the matched text and continue after it
(non-overlapping), otherwise advance one character.  `fuel` bounds the
number of steps (the position strictly increases, so `t.length + 1`
suffices). -/
def findEmailsGo (t : List Char) : Nat → Nat → List (List Char)
  | _, 0 => []
  | i, Nat.succ f =>
      if t.length ≤ i then []
      else
        match matchEmailAt t i with
        | some len => ((t.drop i).take len) :: findEmailsGo t (i + len) f
        | none => findEmailsGo t (i + 1) f

/-- `re.findall(r"\b[A-Za-z0-9._%+-]+@[A-Za-z0-9.-]+\.[A-Z|a-z]{2,}\b", text)`:
the list of e-mail-shaped substrings of the raw (unlowered) text. -/
def findEmails (t : List Char) : List (List Char) :=
  findEmailsGo t 0 (t.length + 1)

/-- `bool(re.search(r"\b[A-Za-z0-9._%+-]+@[A-Za-z0-9.-]+\.(com|org|net|co)\b", mail))`:
some position of `mail` starts a local-part run, an `@`, a domain run, a dot
and one of the four literal TLDs, with `\b` at both ends.  A backtracking
engine finds a match exactly when some such decomposition exists, so the
embedding quantifies over the decompositions. -/
def corpSearch (mail : List Char) : Bool :=
  let n := mail.length
  (List.range (n + 1)).any fun i =>
    boundAt mail i &&
    ((List.range (n + 1)).any fun l =>
      decide (1 ≤ l) && sliceIs localChar mail i l &&
      mail[i + l]? == some '@' &&
      ((List.range (n + 1)).any fun d =>
        decide (1 ≤ d) && sliceIs domChar mail (i + l + 1) d &&
        mail[i + l + 1 + d]? == some '.' &&
        (["com", "org", "net", "co"].any fun w =>
          occursAt w.data mail (i + l + 1 + d + 1) &&
          boundAt mail (i + l + 1 + d + 1 + w.data.length))))

/-- `re.search(r"@(gmail|yahoo|hotmail|outlook)\.", mail)` as a Boolean:
an `@` immediately followed by one of the four (lower-case) provider names
and a dot.  The comparison is case-sensitive, exactly as in the source. -/
def consumerSearch (mail : List Char) : Bool :=
  (List.range (mail.length + 1)).any fun i =>
    mail[i]? == some '@' &&
    (["gmail.", "yahoo.", "hotmail.", "outlook."].any fun w =>
      occursAt w.data mail (i + 1))

/-- Character class `[^\S\r\n]`: whitespace other than `\r` and `\n`. -/
def hspaceChar (c : Char) : Bool :=
  isPySpace c && c != '\r' && c != '\n'

/-- Truthiness of `re.findall` for the phone pattern
`(\+?\d{1,3}[^\S\r\n]*)?(\(?\d{3,4}\)?[^\S\r\n]*)?\d{3,4}[^\S\r\n]*\d{3,4}`.
Both prefix groups are optional, so a match exists iff the mandatory core
`\d{3,4}[^\S\r\n]*\d{3,4}` matches somewhere; the embedding quantifies over
the decompositions of the core. -/
def phoneFound (t : List Char) : Bool :=
  let n := t.length
  (List.range (n + 1)).any fun i =>
    [3, 4].any fun a =>
      sliceIs Char.isDigit t i a &&
      ((List.range (n + 1)).any fun k =>
        sliceIs hspaceChar t (i + a) k &&
        ([3, 4].any fun b => sliceIs Char.isDigit t (i + a + k) b))

/-- Character class `[A-z0-9_\-\.]` of the LinkedIn regex (note `A-z` spans
all ASCII codes between `A` and `z`). -/
def linkChar (c : Char) : Bool :=
  (decide ('A' ≤ c) && decide (c ≤ 'z')) || c.isDigit || c == '_' || c == '-' || c == '.'

/-- Truthiness of `re.search` for
`(https?://)?(www\.)?linkedin\.com/(in|pub)/[A-z0-9_\-\.]+`: the optional
scheme and `www.` groups cannot affect matchability, so a match exists iff
`linkedin.com/in/` or `linkedin.com/pub/` occurs followed by at least one
class character. -/
def linkedinFound (t : List Char) : Bool :=
  (List.range (t.length + 1)).any fun i =>
    ["linkedin.com/in/", "linkedin.com/pub/"].any fun w =>
      occursAt w.data t i &&
      (match t[i + w.data.length]? with
       | some c => linkChar c
       | none => false)

/-- The education keywords of `check_sections`, in source order. -/
def eduKeywords : List String :=
  ["education", "degree", "bachelor", "master", "phd", "b.sc", "m.sc", "mba",
   "btech", "b.e.", "b.e", "mtech"]

/-- The experience keywords of `check_sections`, in source order. -/
def expKeywords : List String :=
  ["experience", "work history", "employment", "positions", "career profile",
   "professional experience"]

/-- The seven section flags computed by `check_sections`, in the dict's
insertion order: Email, Phone, Professional Email, LinkedIn, Education,
Experience, Skills. -/
structure SectionChecks where
  email : Bool
  phone : Bool
  professionalEmail : Bool
  linkedin : Bool
  education : Bool
  experience : Bool
  skills : Bool
deriving Repr, DecidableEq

/-- The key/value pairs of the `checks` dict, in insertion order
(`Email`, `Phone`, `Professional Email`, `LinkedIn`, `Education`,
`Experience`, `Skills`). -/
def SectionChecks.pairs (s : SectionChecks) : List (String × Bool) :=
  [("Email", s.email), ("Phone", s.phone),
   ("Professional Email", s.professionalEmail), ("LinkedIn", s.linkedin),
   ("Education", s.education), ("Experience", s.experience),
   ("Skills", s.skills)]

/-- `check_sections(text)`: e-mail presence from the findall list, phone and
LinkedIn regex truthiness, professional e-mail as `any` over the found
e-mails of (corporate pattern found ∧ consumer pattern not found), and
keyword containment on the lowered text for Education, Experience and
Skills. -/
def check_sections (t : List Char) : SectionChecks :=
  let emails := findEmails t
  { email := !emails.isEmpty
    phone := phoneFound t
    professionalEmail := emails.any fun m => corpSearch m && !consumerSearch m
    linkedin := linkedinFound t
    education := eduKeywords.any fun kw => containsSub kw.data (lowerText t)
    experience := expKeywords.any fun kw => containsSub kw.data (lowerText t)
    skills := containsSub "skill".data (lowerText t) }

/-- Python `int(b)` for a boolean, used when summing dict values. -/
def boolInt (b : Bool) : Int :=
  if b then 1 else 0

@[simp] theorem boolInt_false : boolInt false = 0 := rfl

@[simp] theorem boolInt_true : boolInt true = 1 := rfl

theorem boolInt_nonneg (b : Bool) : 0 ≤ boolInt b := by cases b <;> simp

theorem boolInt_le_one (b : Bool) : boolInt b ≤ 1 := by cases b <;> simp

/-- `sum(list(sections.values()))` over the seven flags. -/
def sectionSum (s : SectionChecks) : Int :=
  boolInt s.email + boolInt s.phone + boolInt s.professionalEmail +
    boolInt s.linkedin + boolInt s.education + boolInt s.experience +
    boolInt s.skills

/-- The `+10` ideal-length bonus of `calculate_score`:
`if 300 <= word_count <= 1000: score += 10`. -/
def lengthBonus (word_count : Nat) : Int :=
  if 300 ≤ word_count ∧ word_count ≤ 1000 then 10 else 0

/-- The score accumulated by `calculate_score` before the final clamp:
`score = 0`, `score += sum(list(sections.values())) * 10`,
`score -= min(spell_errors, 5) * 2`, `+5` for a professional email,
`+10` for the ideal length band, `3 + len(buzzwords)` when any buzzword
matched, `-5` when the page estimate exceeds 2. -/
def scoreRaw (sections : SectionChecks) (spell_errors : Nat)
    (word_count : Nat) (page_count : Nat) (buzzwords : List String) : Int :=
  sectionSum sections * 10
    - (min (spell_errors : Int) 5) * 2
    + (if sections.professionalEmail then 5 else 0)
    + lengthBonus word_count
    + (if buzzwords.isEmpty then 0 else 3 + (buzzwords.length : Int))
    - (if page_count > 2 then 5 else 0)

/-- `return max(0, min(100, score))` of `calculate_score`. -/
def clampScore (x : Int) : Int :=
  max 0 (min 100 x)

/-- `calculate_score(sections, spell_errors, word_count, page_count, buzzwords)`. -/
def calculate_score (sections : SectionChecks) (spell_errors : Nat)
    (word_count : Nat) (page_count : Nat) (buzzwords : List String) : Int :=
  clampScore (scoreRaw sections spell_errors word_count page_count buzzwords)

/-- The seven section-flag names, used to address a single flag. -/
inductive SectionName where
  | email | phone | professionalEmail | linkedin | education | experience | skills
deriving Repr, DecidableEq

/-- Read one flag of a `SectionChecks`. -/
def SectionChecks.get (s : SectionChecks) : SectionName → Bool
  | .email => s.email
  | .phone => s.phone
  | .professionalEmail => s.professionalEmail
  | .linkedin => s.linkedin
  | .education => s.education
  | .experience => s.experience
  | .skills => s.skills

/-- Update one flag of a `SectionChecks`. -/
def SectionChecks.set (s : SectionChecks) (n : SectionName) (v : Bool) : SectionChecks :=
  match n with
  | .email => { s with email := v }
  | .phone => { s with phone := v }
  | .professionalEmail => { s with professionalEmail := v }
  | .linkedin => { s with linkedin := v }
  | .education => { s with education := v }
  | .experience => { s with experience := v }
  | .skills => { s with skills := v }

theorem clampScore_mono {x y : Int} (h : x ≤ y) : clampScore x ≤ clampScore y := by
  unfold clampScore
  omega

/-- **C1.** For every input (section flags, spelling-error count, word count,
page count, buzzword list), `calculate_score` returns an integer score with
`0 ≤ score ≤ 100`; the scorer is a total function. -/
theorem calculate_score_bounds (sections : SectionChecks) (spell_errors : Nat)
    (word_count : Nat) (page_count : Nat) (buzzwords : List String) :
    0 ≤ calculate_score sections spell_errors word_count page_count buzzwords ∧
      calculate_score sections spell_errors word_count page_count buzzwords ≤ 100 := by
  unfold calculate_score clampScore
  omega

/-- **C7.** With all other scorer inputs fixed, turning one section flag from
`false` to `true` never decreases the score returned by `calculate_score`. -/
theorem calculate_score_flag_mono (s : SectionChecks) (n : SectionName)
    (spell_errors word_count page_count : Nat) (buzzwords : List String)
    (h : s.get n = false) :
    calculate_score s spell_errors word_count page_count buzzwords ≤
      calculate_score (s.set n true) spell_errors word_count page_count buzzwords := by
  apply clampScore_mono
  obtain ⟨e, p, pe, li, ed, ex, sk⟩ := s
  cases n <;>
    simp only [SectionChecks.get] at h <;>
    simp [scoreRaw, sectionSum, SectionChecks.set, h] <;>
    omega

/-- Witness for `calculate_score_flag_mono` at the all-false flag record and
the `email` flag. -/
theorem calculate_score_flag_mono_witness :
    calculate_score ⟨false, false, false, false, false, false, false⟩ 0 0 1 [] ≤
      calculate_score
        (SectionChecks.set ⟨false, false, false, false, false, false, false⟩
          SectionName.email true) 0 0 1 [] :=
  calculate_score_flag_mono ⟨false, false, false, false, false, false, false⟩
    SectionName.email 0 0 1 [] (by decide)

/-- **C8.** In `calculate_score`, word counts of exactly 300 and exactly 1000
both receive the `+10` ideal-length bonus, while 299 and 1001 do not: with
every other input fixed, the pre-clamp score at word count 300 (resp. 1000)
exceeds the one at 299 (resp. 1001) by exactly 10, and 299 and 1001 receive
the same (zero) bonus as word count 0. -/
theorem calculate_score_length_band (s : SectionChecks) (spell_errors : Nat)
    (page_count : Nat) (buzzwords : List String) :
    scoreRaw s spell_errors 300 page_count buzzwords =
        scoreRaw s spell_errors 299 page_count buzzwords + 10 ∧
      scoreRaw s spell_errors 1000 page_count buzzwords =
        scoreRaw s spell_errors 1001 page_count buzzwords + 10 ∧
      lengthBonus 300 = 10 ∧ lengthBonus 1000 = 10 ∧
      lengthBonus 299 = 0 ∧ lengthBonus 1001 = 0 := by
  refine ⟨?_, ?_, by decide, by decide, by decide, by decide⟩ <;>
    simp only [scoreRaw, lengthBonus] <;> split_ifs <;> omega

/-- **C10.** For every input text, `check_sections` returns exactly the seven
keys `Email`, `Phone`, `Professional Email`, `LinkedIn`, `Education`,
`Experience`, `Skills` (in dict insertion order), and whenever the
`Professional Email` flag is true the `Email` flag is also true. -/
theorem check_sections_invariants (t : List Char) :
    (check_sections t).pairs.map Prod.fst =
      ["Email", "Phone", "Professional Email", "LinkedIn", "Education",
       "Experience", "Skills"] ∧
    ((check_sections t).professionalEmail = true →
      (check_sections t).email = true) := by
  refine ⟨rfl, ?_⟩
  intro h
  simp only [check_sections] at h ⊢
  rw [List.any_eq_true] at h
  obtain ⟨m, hm, _⟩ := h
  cases hF : findEmails t with
  | nil => simp [hF] at hm
  | cons a l => simp [hF]

/-- Witness for `check_sections_invariants`: on a text whose only e-mail has
a corporate domain, the `Professional Email` hypothesis holds and the
`Email` flag follows. -/
theorem check_sections_invariants_witness :
    (check_sections "a@b.com".data).email = true :=
  (check_sections_invariants "a@b.com".data).2 (by decide)

/-- The consumer-domain denylist named by the specification. -/
def specConsumerDenylist : List String :=
  ["gmail.com", "yahoo.com", "hotmail.com", "outlook.com"]

/-- The domain of an e-mail string: everything after the first `@`. -/
def emailDomain (mail : List Char) : List Char :=
  mail.drop (runLen (fun c => c != '@') mail + 1)

/-- Claim-side definition of the professional-e-mail flag, following the
spec's words for comparison with the source's flag: true iff an e-mail was
detected and its domain, compared case-insensitively, is absent from the
consumer-domain denylist. -/
def specProfessionalEmail (t : List Char) : Bool :=
  (findEmails t).any fun m =>
    !(specConsumerDenylist.any fun d => lowerText (emailDomain m) == d.data)

/-- **C4 counterexample.** On `"contact a@b.io please"` an e-mail is
detected and its domain `b.io` is not on the consumer denylist, so the
claimed characterization makes the flag true; the source computes `false`
because its corporate pattern also demands a TLD among
`com`/`org`/`net`/`co`. -/
theorem professional_email_counterexample :
    (check_sections "contact a@b.io please".data).email = true ∧
    specProfessionalEmail "contact a@b.io please".data = true ∧
    (check_sections "contact a@b.io please".data).professionalEmail = false :=
  ⟨by decide, by decide, by decide⟩

/-- **C4 (amended).** The professional-e-mail flag is true iff some detected
e-mail contains a match of the corporate pattern
`\b[A-Za-z0-9._%+-]+@[A-Za-z0-9.-]+\.(com|org|net|co)\b` and no match of the
(case-sensitive) consumer pattern `@(gmail|yahoo|hotmail|outlook)\.`; when
no e-mail is detected the flag is false. -/
theorem professional_email_characterization (t : List Char) :
    ((check_sections t).professionalEmail = true ↔
      ∃ m ∈ findEmails t, corpSearch m = true ∧ consumerSearch m = false) ∧
    (findEmails t = [] → (check_sections t).professionalEmail = false) := by
  constructor
  · simp [check_sections, List.any_eq_true, Bool.and_eq_true, Bool.not_eq_true']
  · intro h
    simp [check_sections, h]

/-- Witness for `professional_email_characterization`: applied at
`"a@b.com"`, where the flag evaluates to true, producing the existential. -/
theorem professional_email_characterization_witness :
    ∃ m ∈ findEmails "a@b.com".data,
      corpSearch m = true ∧ consumerSearch m = false :=
  (professional_email_characterization "a@b.com".data).1.mp (by decide)

/-- The C2 scenario text: it contains `john.doe@gmail.com`, no section
keywords, no buzzwords, no digits and exactly 50 whitespace-separated
words. -/
def textC2 : List Char :=
  ("john.doe@gmail.com qx qx qx qx qx qx qx qx qx qx qx qx qx qx qx qx qx " ++
   "qx qx qx qx qx qx qx qx qx qx qx qx qx qx qx qx qx qx qx qx qx qx qx " ++
   "qx qx qx qx qx qx qx qx qx").data

set_option maxRecDepth 40000 in
/-- **C2 counterexample.** On the 50-word scenario text the e-mail section
flag is true (the other six are false), no buzzword matches and the word
count is 50 — yet the score is not 0, because the detected e-mail itself
scores 10 points through the `Email` section flag. -/
theorem scenario_score_counterexample :
    (check_sections textC2).email = true ∧
    (check_sections textC2).professionalEmail = false ∧
    (check_sections textC2).phone = false ∧
    (check_sections textC2).linkedin = false ∧
    (check_sections textC2).education = false ∧
    (check_sections textC2).experience = false ∧
    (check_sections textC2).skills = false ∧
    buzzword_check textC2 = [] ∧
    word_page_count textC2 = (50, 1) ∧
    calculate_score (check_sections textC2) 0 (word_page_count textC2).1
        (word_page_count textC2).2 (buzzword_check textC2) ≠ 0 :=
  ⟨by decide, by decide, by decide, by decide, by decide, by decide,
   by decide, rfl, by decide, by decide⟩

set_option maxRecDepth 40000 in
/-- **C2 (amended).** On the scenario text — `john.doe@gmail.com`, no resume
sections, 0 buzzwords, 0 spelling errors, 50 words — the score equals 10:
the `Email` section flag raised by the detected address contributes 10
points, while the professional-e-mail bonus, the length bonus and the
buzzword bonus all contribute 0. -/
theorem scenario_score_amended :
    calculate_score (check_sections textC2) 0 (word_page_count textC2).1
      (word_page_count textC2).2 (buzzword_check textC2) = 10 := by decide

/-- A match of `((?:19|20)\d{2})` at the head of `t`: two digits completing
a leading `19` or `20`, yielding the 4-digit value. -/
def yearAt (t : List Char) : Option Nat :=
  match t with
  | c1 :: c2 :: c3 :: c4 :: _ =>
      if ((c1 == '1' && c2 == '9') || (c1 == '2' && c2 == '0')) &&
          c3.isDigit && c4.isDigit then
        some ((c1.toNat - 48) * 1000 + (c2.toNat - 48) * 100 +
          (c3.toNat - 48) * 10 + (c4.toNat - 48))
      else none
  | _ => none

/-- Scanning loop of `re.findall(r'((?:19|20)\d{2})', text)`: emit the value
and skip four characters on a match, else advance one character.  `fuel`
bounds the steps; the position strictly advances, so `t.length` suffices. -/
def findYearTokensGo : List Char → Nat → List Nat
  | _, 0 => []
  | t, Nat.succ f =>
      match t with
      | [] => []
      | _ :: rest =>
          match yearAt t with
          | some v => v :: findYearTokensGo (t.drop 4) f
          | none => findYearTokensGo rest f

/-- `re.findall(r'((?:19|20)\d{2})', text)` as a list of numeric values. -/
def findYearTokens (t : List Char) : List Nat :=
  findYearTokensGo t t.length

/-- Numeric value of a digit string. -/
def natOfDigits (ds : List Char) : Nat :=
  ds.foldl (fun acc c => acc * 10 + (c.toNat - 48)) 0

/-- A match of `(\d+)\s+years?` at the head of `t`: a maximal digit run, a
maximal whitespace run, the literal `year` and an optional `s`.  (Greedy
maximal runs are exact here: a shorter digit run would be followed by a
digit, which `\s` cannot match, and a shorter whitespace run by whitespace,
which `y` cannot match.)  Returns the captured value and the match length. -/
def xYearsAt (t : List Char) : Option (Nat × Nat) :=
  let d := runLen Char.isDigit t
  if d = 0 then none
  else
    let w := runLen isPySpace (t.drop d)
    if w = 0 then none
    else if occursAt "year".data t (d + w) then
      some (natOfDigits (t.take d),
        d + w + 4 + (if t[d + w + 4]? == some 's' then 1 else 0))
    else none

/-- Scanning loop of `re.findall(r'(\d+)\s+years?', text)`. -/
def findXYearsGo : List Char → Nat → List Nat
  | _, 0 => []
  | t, Nat.succ f =>
      match t with
      | [] => []
      | _ :: rest =>
          match xYearsAt t with
          | some (v, consumed) => v :: findXYearsGo (t.drop consumed) f
          | none => findXYearsGo rest f

/-- `re.findall(r'(\d+)\s+years?', text)` as a list of captured values. -/
def findXYears (t : List Char) : List Nat :=
  findXYearsGo t t.length

/-- `max(l)` over a nonempty list (0 on the empty list, which the source
never queries). -/
def listMax : List Nat → Nat
  | [] => 0
  | h :: tl => tl.foldl Nat.max h

/-- `min(l)` over a nonempty list (0 on the empty list, which the source
never queries). -/
def listMin : List Nat → Nat
  | [] => 0
  | h :: tl => tl.foldl Nat.min h

/-- `count_years_experience(text)`: when at least two (not necessarily
distinct) year tokens are found, return `max − min` over them; otherwise
fall back to the explicit `"<N> years"` phrasing, returning the largest `N`
found, or 0 when the phrasing is absent. -/
def count_years_experience (t : List Char) : Int :=
  let years := findYearTokens t
  if 2 ≤ years.length then (listMax years : Int) - (listMin years : Int)
  else
    match findXYears t with
    | [] => 0
    | ms => (listMax ms : Int)

/-- Claim-side definition following the spec's words, for comparison with
the source: prefer the explicit `"<N> years"` phrasing (taking the max `N`)
when present, and only fall back to the year-range heuristic (requiring at
least 2 distinct years) when no explicit phrasing exists. -/
def specYearsExperience (t : List Char) : Int :=
  match findXYears t with
  | [] =>
      let years := (findYearTokens t).dedup
      if 2 ≤ years.length then (listMax years : Int) - (listMin years : Int)
      else 0
  | ms => (listMax ms : Int)

theorem foldl_min_le_foldl_max (l : List Nat) (a b : Nat) (h : a ≤ b) :
    l.foldl Nat.min a ≤ l.foldl Nat.max b := by
  induction l generalizing a b with
  | nil => exact h
  | cons x xs ih =>
      exact ih (Nat.min a x) (Nat.max b x)
        (le_trans (Nat.min_le_left a x) (le_trans h (Nat.le_max_left b x)))

theorem listMin_le_listMax (l : List Nat) : listMin l ≤ listMax l := by
  cases l with
  | nil => exact Nat.le_refl 0
  | cons h tl => exact foldl_min_le_foldl_max tl h h (Nat.le_refl h)

/-- **C3 counterexample.** On `"2020 2020 3 years"` the explicit phrasing
`3 years` is present, so the claimed policy yields 3; the source instead
finds two (equal) year tokens first and returns `max − min = 0`. -/
theorem years_experience_counterexample :
    findXYears "2020 2020 3 years".data = [3] ∧
    specYearsExperience "2020 2020 3 years".data = 3 ∧
    count_years_experience "2020 2020 3 years".data = 0 :=
  ⟨by decide, by decide, by decide⟩

/-- **C3 (amended).** The detector tries the year-range heuristic first:
whenever at least two (not necessarily distinct) 4-digit year tokens are
found it returns their `max − min`, and only when fewer than two year
tokens exist does it fall back to the explicit `"<N> years"` phrasing
(taking the max `N`, or 0 when absent); the result is always a non-negative
integer. -/
theorem years_experience_amended (t : List Char) :
    0 ≤ count_years_experience t ∧
    (2 ≤ (findYearTokens t).length →
      count_years_experience t =
        (listMax (findYearTokens t) : Int) - (listMin (findYearTokens t) : Int)) ∧
    ((findYearTokens t).length < 2 → findXYears t = [] →
      count_years_experience t = 0) ∧
    ((findYearTokens t).length < 2 → findXYears t ≠ [] →
      count_years_experience t = (listMax (findXYears t) : Int)) := by
  refine ⟨?_, ?_, ?_, ?_⟩
  · simp only [count_years_experience]
    split_ifs with h
    · have := listMin_le_listMax (findYearTokens t)
      omega
    · cases hX : findXYears t with
      | nil => simp [hX]
      | cons a l => simp [hX]
  · intro h
    simp [count_years_experience, h]
  · intro h hX
    simp only [count_years_experience]
    rw [if_neg (by omega), hX]
  · intro h hX
    simp only [count_years_experience]
    rw [if_neg (by omega)]

/-- One `language_tool_python` match object, with the fields `spell_check`
reads: `context`, `offset` and `errorLength`. -/
structure LTMatch where
  context : List Char
  offset : Nat
  errorLength : Nat

/-- `spell_check(text)`: construct the backend tool and run
`tool.check(text)` — both unguarded in the source, so a backend failure is
propagated unchanged.  On success, collect
`set(m.context[m.offset:m.offset+m.errorLength] for m in matches)` (the
distinct flagged slices; a first-occurrence `dedup` models the set's
cardinality) and return its size together with the words. -/
def spell_check (backend : List Char → Except String (List LTMatch))
    (t : List Char) : Except String (Nat × List (List Char)) :=
  match backend t with
  | .error e => .error e
  | .ok ms =>
      .ok (((ms.map fun m => (m.context.drop m.offset).take m.errorLength).dedup).length,
        (ms.map fun m => (m.context.drop m.offset).take m.errorLength).dedup)

/-- **C5 counterexample.** With an unavailable spelling backend,
`spell_check` returns the backend's error rather than a degraded
`errorCount = 0` result: the exception is propagated to the pipeline. -/
theorem spell_check_counterexample :
    spell_check (fun _ => Except.error "LanguageTool unavailable")
        "some resume text".data =
      Except.error "LanguageTool unavailable" := rfl

/-- **C5 (amended).** `spell_check` performs no error handling: whenever the
spelling backend fails, the failure is propagated unchanged to the caller
(no `errorCount = 0` degradation takes place). -/
theorem spell_check_propagates
    (backend : List Char → Except String (List LTMatch)) (t : List Char)
    (e : String) (h : backend t = Except.error e) :
    spell_check backend t = Except.error e := by
  simp [spell_check, h]

/-- Witness for `spell_check_propagates` at a concrete failing backend. -/
theorem spell_check_propagates_witness :
    spell_check (fun _ => Except.error "down") [] = Except.error "down" :=
  spell_check_propagates (fun _ => Except.error "down") [] "down" rfl

/-- The format-specific parser outcomes available to `extract_text`: the
primary PDF extractor (`fitz`), its fallback (`pdfminer`), the `docx2txt`
parser — each of which may raise — and the text-file contents, read with
`errors='ignore'`, which cannot raise. -/
structure FileParsers where
  pdfPrimary : Except String (List Char)
  pdfFallback : Except String (List Char)
  docxParse : Except String (List Char)
  txtContent : List Char

/-- `extract_text(file)`: dispatch on the lower-cased extension.  `.pdf`
tries the primary extractor and falls back on any exception; `.doc`/`.docx`
use `docx2txt`; `.txt` reads the file; any other extension yields the empty
text, with no error raised. -/
def extract_text (ext : List Char) (p : FileParsers) : Except String (List Char) :=
  let e := lowerText ext
  if e = ".pdf".data then
    match p.pdfPrimary with
    | .ok txt => .ok txt
    | .error _ => p.pdfFallback
  else if e = ".doc".data ∨ e = ".docx".data then p.docxParse
  else if e = ".txt".data then .ok p.txtContent
  else .ok "".data

/-- The caller's per-document guard (`if not text or len(text) < 100:`
warn and `continue`): a document whose extracted text is shorter than 100
characters is skipped (`none`) without being scored; otherwise the text is
passed on to the analysis (`some`). -/
def processDocument (ext : List Char) (p : FileParsers) :
    Except String (Option (List Char)) :=
  match extract_text ext p with
  | .error e => .error e
  | .ok text => .ok (if text.length < 100 then none else some text)

/-- **C6 counterexample.** For the unsupported extension `.xyz`,
`extract_text` does not fail with an `UnsupportedFormat` error: it returns
successfully with the empty text. -/
theorem extract_unsupported_counterexample :
    extract_text ".xyz".data
        ⟨Except.ok "doc".data, Except.ok "doc".data, Except.ok "doc".data,
         "doc".data⟩ =
      Except.ok [] := rfl

/-- **C6 (amended).** For every document whose lower-cased extension is not
in `{.pdf, .doc, .docx, .txt}`, `extract_text` returns the empty text
without raising, and the caller's minimum-content guard then skips the
document — it is never scored, but no `UnsupportedFormat` error exists. -/
theorem extract_unsupported_amended (ext : List Char) (p : FileParsers)
    (h : lowerText ext ∉ [".pdf".data, ".doc".data, ".docx".data, ".txt".data]) :
    extract_text ext p = Except.ok [] ∧
      processDocument ext p = Except.ok none := by
  have h1 : ¬ lowerText ext = ".pdf".data := fun hc => h (by simp [hc])
  have h2 : ¬ lowerText ext = ".doc".data := fun hc => h (by simp [hc])
  have h3 : ¬ lowerText ext = ".docx".data := fun hc => h (by simp [hc])
  have h4 : ¬ lowerText ext = ".txt".data := fun hc => h (by simp [hc])
  have hx : extract_text ext p = Except.ok [] := by
    simp [extract_text, h1, h2, h3, h4]
  exact ⟨hx, by simp [processDocument, hx]⟩

/-- Witness for `extract_unsupported_amended` at the concrete extension
`.xyz` with parsers that would all fail. -/
theorem extract_unsupported_witness :
    extract_text ".xyz".data
        ⟨Except.error "e1", Except.error "e2", Except.error "e3", "t".data⟩ =
        Except.ok [] ∧
      processDocument ".xyz".data
        ⟨Except.error "e1", Except.error "e2", Except.error "e3", "t".data⟩ =
        Except.ok none :=
  extract_unsupported_amended ".xyz".data
    ⟨Except.error "e1", Except.error "e2", Except.error "e3", "t".data⟩
    (by decide)

theorem occursAt_decomp {p t : List Char} {i : Nat} (h : occursAt p t i = true) :
    t = t.take i ++ p ++ t.drop (i + p.length) := by
  have htake : (t.drop i).take p.length = p := by
    simpa [occursAt] using h
  have hdrop : t.drop i = p ++ t.drop (i + p.length) := by
    conv_lhs => rw [← List.take_append_drop p.length (t.drop i)]
    rw [htake, List.drop_drop]
  calc t = t.take i ++ t.drop i := (List.take_append_drop i t).symm
    _ = t.take i ++ (p ++ t.drop (i + p.length)) := by rw [hdrop]
    _ = t.take i ++ p ++ t.drop (i + p.length) := (List.append_assoc ..).symm

theorem occursAt_append (a p b : List Char) :
    occursAt p (a ++ p ++ b) a.length = true := by
  have h1 : (a ++ p ++ b).drop a.length = p ++ b := by
    rw [List.append_assoc, List.drop_left]
  simp [occursAt, h1, List.take_left]

/-- `containsSub` (Python's `in`) finds `p` exactly when `t` splits as
`a ++ p ++ b`, with no condition on the surrounding characters. -/
theorem containsSub_iff (p t : List Char) :
    containsSub p t = true ↔ ∃ a b, t = a ++ p ++ b := by
  unfold containsSub
  rw [List.any_eq_true]
  constructor
  · rintro ⟨i, _, hocc⟩
    exact ⟨t.take i, t.drop (i + p.length), occursAt_decomp hocc⟩
  · rintro ⟨a, b, rfl⟩
    refine ⟨a.length, ?_, occursAt_append a p b⟩
    rw [List.mem_range]
    simp [List.length_append]
    omega

theorem getLast?_take_succ (t : List Char) (j : Nat) (hj : j < t.length) :
    (t.take (j + 1)).getLast? = t[j]? := by
  have hlen : (t.take (j + 1)).length = j + 1 := by
    rw [List.length_take]
    omega
  rw [List.getLast?_eq_getElem?, hlen, Nat.add_sub_cancel, List.getElem?_take,
    if_pos (Nat.lt_succ_self j)]

/-- The word-boundary search of `buzzword_check` finds a nonempty pattern
of word characters exactly when the text splits as `a ++ p ++ b` where `a`
does not end, and `b` does not begin, with a word character. -/
theorem searchWB_iff (p t : List Char) (hne : p ≠ [])
    (hw : p.all isWordChar = true) :
    searchWB p t = true ↔
      ∃ a b, t = a ++ p ++ b ∧
        wordOpt a.getLast? = false ∧ wordOpt b.head? = false := by
  obtain ⟨c, p', rfl⟩ := List.exists_cons_of_ne_nil hne
  rw [List.all_cons, Bool.and_eq_true] at hw
  obtain ⟨hc, hw'⟩ := hw
  have hlastp : ∃ d, (c :: p')[p'.length]? = some d ∧ isWordChar d = true := by
    have hlt : p'.length < (c :: p').length := by simp
    refine ⟨(c :: p')[p'.length], List.getElem?_eq_getElem hlt, ?_⟩
    exact List.all_eq_true.mp (List.all_cons .. ▸ Bool.and_eq_true .. ▸ ⟨hc, hw'⟩)
      _ (List.getElem_mem hlt)
  obtain ⟨d, hdp, hdw⟩ := hlastp
  unfold searchWB
  rw [List.any_eq_true]
  constructor
  · rintro ⟨i, hi, hm⟩
    rw [List.mem_range] at hi
    unfold matchWBAt at hm
    rw [Bool.and_eq_true, Bool.and_eq_true] at hm
    obtain ⟨⟨hocc, hb1⟩, hb2⟩ := hm
    have htake : (t.drop i).take (c :: p').length = c :: p' := by
      simpa [occursAt] using hocc
    have hhead : t[i]? = some c := by
      have h0 : ((t.drop i).take (c :: p').length)[0]? = some c := by
        rw [htake]; simp
      rw [List.getElem?_take, if_pos (by simp), List.getElem?_drop] at h0
      simpa using h0
    have hlastt : t[i + p'.length]? = some d := by
      have h1 : ((t.drop i).take (c :: p').length)[p'.length]? = some d := by
        rw [htake]; exact hdp
      rw [List.getElem?_take, if_pos (by simp), List.getElem?_drop] at h1
      exact h1
    refine ⟨t.take i, t.drop (i + (c :: p').length), occursAt_decomp hocc, ?_, ?_⟩
    · rw [boundAt, bne_iff_ne] at hb1
      rw [hhead] at hb1
      have hb1' : wordOpt (preChar t i) = false := by
        apply Bool.eq_false_iff.mpr
        intro hcontra
        exact hb1 (by rw [hcontra]; simp [wordOpt, hc])
      cases i with
      | zero => rfl
      | succ j =>
          have hj : j < t.length := by
            by_contra hle
            rw [List.getElem?_eq_none (by omega)] at hhead
            exact Option.noConfusion hhead
          rw [getLast?_take_succ t j hj]
          exact hb1'
    · rw [boundAt, bne_iff_ne] at hb2
      have hpre : preChar t (i + (c :: p').length) = t[i + p'.length]? := rfl
      rw [hpre, hlastt] at hb2
      rw [List.head?_drop]
      apply Bool.eq_false_iff.mpr
      intro hcontra
      exact hb2 (by rw [hcontra]; simp [wordOpt, hdw])
  · rintro ⟨a, b, rfl, hA, hB⟩
    refine ⟨a.length, ?_, ?_⟩
    · rw [List.mem_range]
      simp [List.length_append]
      omega
    · have hhead : (a ++ (c :: p') ++ b)[a.length]? = some c := by
        rw [List.append_assoc, List.getElem?_append_right (Nat.le_refl _)]
        simp
      have hlastt : (a ++ (c :: p') ++ b)[a.length + p'.length]? = some d := by
        rw [List.getElem?_append_left (by simp),
          List.getElem?_append_right (by omega)]
        simpa using hdp
      have hpreA : wordOpt (preChar (a ++ (c :: p') ++ b) a.length) = false := by
        cases a with
        | nil => rfl
        | cons a0 a' =>
            have hlt : a'.length < (a0 :: a').length := by simp
            have h1 : preChar ((a0 :: a') ++ (c :: p') ++ b) (a0 :: a').length =
                (a0 :: a')[a'.length]? := by
              show ((a0 :: a') ++ (c :: p') ++ b)[a'.length]? = (a0 :: a')[a'.length]?
              rw [List.append_assoc, List.getElem?_append_left hlt]
            rw [h1]
            rw [List.getLast?_eq_getElem?] at hA
            simpa using hA
      have hheadB : (a ++ (c :: p') ++ b)[a.length + (c :: p').length]? = b.head? := by
        have hidx : a.length + (c :: p').length = (a ++ (c :: p')).length := by
          simp
        rw [hidx, List.getElem?_append_right (Nat.le_refl _), Nat.sub_self]
        exact (List.head?_eq_getElem? b).symm
      have hpreB : preChar (a ++ (c :: p') ++ b) (a.length + (c :: p').length) =
          (a ++ (c :: p') ++ b)[a.length + p'.length]? := rfl
      unfold matchWBAt
      rw [Bool.and_eq_true, Bool.and_eq_true]
      refine ⟨⟨occursAt_append a (c :: p') b, ?_⟩, ?_⟩
      · rw [boundAt, bne_iff_ne, hhead, hpreA]
        simp [wordOpt, hc]
      · rw [boundAt, bne_iff_ne, hpreB, hlastt, hheadB, hB]
        simp [wordOpt, hdw]

theorem data_ne_nil_of_numWords_one (bw : String) (h : numWords bw = 1) :
    bw.data ≠ [] := by
  intro hd
  simp [numWords, hd, pySplit, pySplitGo] at h

theorem mem_buzzword_check (t : List Char) (bw : String) :
    bw ∈ buzzword_check t ↔
      bw ∈ buzzwords ∧
        (if numWords bw == 1 then searchWB bw.data (lowerText t)
         else containsSub bw.data (lowerText t)) = true := by
  unfold buzzword_check
  rw [List.mem_filter]

/-- **C9.** The buzzword detector matches single-word vocabulary entries
only at word boundaries: a single-word entry made of word characters is
reported iff the lowered text splits as `a ++ entry ++ b` with no word
character adjacent on either side (hence `java` does not match inside
`javascript`); multi-word phrase entries are matched by plain substring
search on the lowered text, regardless of surrounding punctuation (hence
`team player` matches in parentheses).  The last three conjuncts evaluate
the detector on the spec's own examples. -/
theorem buzzword_matching (t : List Char) :
    (∀ bw : String, bw ∈ buzzwords → numWords bw = 1 →
      bw.data.all isWordChar = true →
      (bw ∈ buzzword_check t ↔
        ∃ a b, lowerText t = a ++ bw.data ++ b ∧
          wordOpt a.getLast? = false ∧ wordOpt b.head? = false)) ∧
    (∀ bw : String, bw ∈ buzzwords → numWords bw ≠ 1 →
      (bw ∈ buzzword_check t ↔ ∃ a b, lowerText t = a ++ bw.data ++ b)) ∧
    buzzword_check "I know javascript".data = ["javascript"] ∧
    buzzword_check "I know java, really".data = ["java"] ∧
    buzzword_check "a (team player)!".data = ["team player"] := by
  refine ⟨?_, ?_, rfl, rfl, rfl⟩
  · intro bw hbw h1 hw
    have hne := data_ne_nil_of_numWords_one bw h1
    rw [mem_buzzword_check, if_pos (by simp [h1]),
      searchWB_iff bw.data (lowerText t) hne hw]
    exact and_iff_right hbw
  · intro bw hbw h2
    rw [mem_buzzword_check, if_neg (by simp [h2]),
      containsSub_iff bw.data (lowerText t)]
    exact and_iff_right hbw
/-- Witness for `buzzword_matching`: instantiated at `java` on the text
`on java stack`, with the boundary decomposition supplied explicitly. -/
theorem buzzword_matching_witness :
    "java" ∈ buzzword_check "on java stack".data :=
  ((buzzword_matching "on java stack".data).1 "java" (by simp [buzzwords])
      rfl rfl).mpr
    ⟨"on ".data, " stack".data, rfl, rfl, rfl⟩

/-- Witness for `years_experience_amended`: each branch instantiated on a
concrete text whose hypotheses hold by evaluation. -/
theorem years_experience_amended_witness :
    count_years_experience "1999 2010".data =
        ((listMax (findYearTokens "1999 2010".data) : Int) -
          (listMin (findYearTokens "1999 2010".data) : Int)) ∧
    count_years_experience "no dates at all".data = 0 ∧
    count_years_experience "5 years".data =
        (listMax (findXYears "5 years".data) : Int) :=
  ⟨(years_experience_amended "1999 2010".data).2.1 (by decide),
   (years_experience_amended "no dates at all".data).2.2.1 (by decide) (by decide),
   (years_experience_amended "5 years".data).2.2.2 (by decide) (by decide)⟩
